import Mathlib

/-!
# Verification of the FormGuard form-validation library

Shallow embedding of the FormGuard client-side form-validation engine
(`src/lib/validators.ts` and `src/core/form-guard.ts`, primary file variants)
into Lean 4, together with theorems settling the frozen claims about it.

Modelling conventions:
* JavaScript runtime values flowing through the validators are modelled by
  `JSValue` (string, number, boolean, string array, null, undefined, NaN).
  JS numbers are modelled by `Int`; the numeric string coercion
  (`Number(...)`, `parseInt`, `parseFloat`) covers the decimal-integer
  subset exercised by the library, with `NaN` modelled as `Option.none`.
* Host services with behaviour outside this repository (the WHATWG `URL`
  constructor and the `RegExp` engine used by the `pattern` rule) are
  abstracted into a `JSEnv` record; theorems quantify over it.
* The two literal regexes of `validators.ts` (email, phone) are embedded
  directly as decidable string predicates with the anchored-match semantics
  of the originals.
* DOM access is modelled by explicit state: a form is an association list
  from field names to `FieldElement`s carrying the field's current extracted
  value (the `getFieldValue` collaborator), its HTML attributes, and its
  native `ValidityState`.  `console.warn` output is returned as data where a
  claim observes it; thrown exceptions become `Except.error`.
-/

set_option maxHeartbeats 1000000

namespace FormGuard

/-- JavaScript values that flow through the validators: strings, numbers
(decimal-integer subset, with `nan` for NaN), booleans, string arrays
(checkbox groups / multi-selects), `null` and `undefined`. -/
inductive JSValue where
  | str (s : String)
  | num (n : Int)
  | nan
  | bool (b : Bool)
  | arr (l : List String)
  | null
  | undef
deriving DecidableEq, Repr

/-- JavaScript truthiness (`!value` is the negation of this): `""`, `0`,
`NaN`, `false`, `null` and `undefined` are falsy; arrays are always truthy. -/
def jsTruthy : JSValue → Bool
  | .str s => !(s == "")
  | .num n => !(n == 0)
  | .nan => false
  | .bool b => b
  | .arr _ => true
  | .null => false
  | .undef => false

/-- The JS whitespace class `\s` (ASCII part, sufficient for the library's
inputs). -/
def isJsSpace (c : Char) : Bool :=
  c == ' ' || c == '\t' || c == '\n' || c == '\r' || c == '\x0b' || c == '\x0c'

/-- Digits of a decimal numeral to a natural number. -/
def digitsToNat (cs : List Char) : Nat :=
  cs.foldl (fun a c => a * 10 + (c.toNat - 48)) 0

/-- Source `Number(string)` on the decimal-integer subset: trim `\s`, the empty
string coerces to `0`, an optional sign followed by digits parses, anything
else is NaN (`none`). -/
def strToNumber (s : String) : Option Int :=
  let cs := ((s.toList.dropWhile isJsSpace).reverse.dropWhile isJsSpace).reverse
  match cs with
  | [] => some 0
  | '+' :: rest =>
      if !rest.isEmpty && rest.all Char.isDigit then some (digitsToNat rest) else none
  | '-' :: rest =>
      if !rest.isEmpty && rest.all Char.isDigit then some (-(digitsToNat rest : Int)) else none
  | _ => if cs.all Char.isDigit then some (digitsToNat cs) else none

/-- Source `String(value)`: JS string coercion. Arrays join with commas. -/
def jsToString : JSValue → String
  | .str s => s
  | .num n => toString n
  | .nan => "NaN"
  | .bool b => if b then "true" else "false"
  | .arr l => String.intercalate "," l
  | .null => "null"
  | .undef => "undefined"

/-- Source `Number(value)`: JS numeric coercion, `none` is NaN. Arrays coerce
through their string form. -/
def jsToNumber : JSValue → Option Int
  | .str s => strToNumber s
  | .num n => some n
  | .nan => none
  | .bool b => some (if b then 1 else 0)
  | .arr l => strToNumber (String.intercalate "," l)
  | .null => some 0
  | .undef => none

/-- JS `a >= b` on numbers: false whenever either side is NaN. -/
def numGe (a b : Option Int) : Bool :=
  match a, b with
  | some x, some y => decide (y ≤ x)
  | _, _ => false

/-- JS `a <= b` on numbers: false whenever either side is NaN. -/
def numLe (a b : Option Int) : Bool :=
  match a, b with
  | some x, some y => decide (x ≤ y)
  | _, _ => false

/-- A native `ValidityState` snapshot of a field element. -/
structure NativeValidity where
  valid : Bool
  valueMissing : Bool
  typeMismatch : Bool
  patternMismatch : Bool
  tooLong : Bool
  tooShort : Bool
  rangeUnderflow : Bool
  rangeOverflow : Bool
  stepMismatch : Bool
  badInput : Bool
  customError : Bool
deriving DecidableEq, Repr

/-- All native constraint flags clear and `valid = true`: the state of an
unconstrained field. -/
def nativeOk : NativeValidity :=
  ⟨true, false, false, false, false, false, false, false, false, false, false⟩

/-- A form field element: its `type` property, its current value as
extracted by the `getFieldValue` collaborator, its HTML attributes
(for `getAttribute`/`hasAttribute`) and its native validity. -/
structure FieldElement where
  type : String
  value : JSValue
  attrs : List (String × String)
  validity : NativeValidity
deriving DecidableEq, Repr

/-- Generic association-list lookup, mirroring JS object / `Map.get`
access (first binding wins; our states keep keys unique). -/
def lookupAssoc {α : Type} (l : List (String × α)) (k : String) : Option α :=
  (l.find? (fun q => q.1 == k)).map (fun q => q.2)

/-- JS `Map.set`: overwrite in place if the key exists, else append
(insertion order is preserved). -/
def setAssoc {α : Type} (l : List (String × α)) (k : String) (v : α) : List (String × α) :=
  if l.any (fun q => q.1 == k) then l.map (fun q => if q.1 == k then (k, v) else q)
  else l ++ [(k, v)]

/-- Lookup that mirrors a JS truthiness test on the found string
(`if (obj[k]) ...`): an empty string counts as absent. -/
def truthyLookup (l : List (String × String)) (k : String) : Option String :=
  match lookupAssoc l k with
  | some s => if s == "" then none else some s
  | none => none

/-- Source `field.hasAttribute(k)`. -/
def hasAttr (f : FieldElement) (k : String) : Bool :=
  f.attrs.any (fun q => q.1 == k)

/-- Source `field.getAttribute(k)` followed by a truthiness test, the pattern used
throughout `syncWithHTMLAttributes`. -/
def getAttrT (f : FieldElement) (k : String) : Option String :=
  truthyLookup f.attrs k

/-- Host behaviour used by the validators but implemented outside this
repository: `new URL(s)` success, and `RegExp` compilation
(`none` = the constructor throws on a malformed pattern) plus matching. -/
structure JSEnv where
  urlTest : String → Bool
  regexCompile : String → Option (String → Bool)

/-- The email regex `^[^\s@]+@[^\s@]+\.[^\s@]+$` of `validateEmail`,
as an anchored-match predicate: some split local\@domain with a nonempty
local part free of `\s` and `@`, and a domain part free of `\s` and `@`
containing a dot that is neither its first nor its last character. -/
def emailRegexTest (s : String) : Bool :=
  let cs := s.toList
  (List.range cs.length).any (fun i =>
    cs.get? i == some '@' &&
    decide (0 < i) &&
    (cs.take i).all (fun c => !isJsSpace c && !(c == '@')) &&
    (let d := cs.drop (i + 1)
     d.all (fun c => !isJsSpace c && !(c == '@')) &&
     (List.range d.length).any (fun j =>
       decide (0 < j) && decide (j + 1 < d.length) && d.get? j == some '.')))

/-- The phone regex `^[\+]?[0-9\s\-\(\)]+$` of `validatePhone`: an optional
leading `+` followed by a nonempty run of digits, whitespace, dashes and
parentheses. -/
def phoneRegexTest (s : String) : Bool :=
  let cs := s.toList
  let body := if cs.head? == some '+' then cs.tail else cs
  !body.isEmpty && body.all (fun c => c.isDigit || isJsSpace c || c == '-' || c == '(' || c == ')')

/-- Source `String(value).replace(/\s/g, "")`. -/
def stripJsSpaces (s : String) : String :=
  String.mk (s.toList.filter (fun c => !isJsSpace c))

/-- Source `validateRequired` (`validators.ts`): checkboxes require the value to be
strictly `true`, arrays require nonemptiness, everything else requires the
value to differ strictly from `null`, `undefined` and `""`. Without a field
context it passes vacuously. -/
def validateRequired (value : JSValue) (_ruleValue : JSValue) (field : Option FieldElement) : Bool :=
  match field with
  | none => true
  | some f =>
    if f.type == "checkbox" then value == JSValue.bool true
    else
      match value with
      | .arr l => decide (0 < l.length)
      | v => !(v == JSValue.null) && !(v == JSValue.undef) && !(v == JSValue.str "")

/-- Source `validateEmail`: empty (falsy) passes; otherwise the email regex on
`String(value)`. -/
def validateEmail (value : JSValue) (_ruleValue : JSValue) (_field : Option FieldElement) : Bool :=
  if !jsTruthy value then true
  else emailRegexTest (jsToString value)

/-- Source `validateMinLength`: falsy passes; arrays compare their element count,
other values their string length, against `Number(minLength)`. -/
def validateMinLength (value : JSValue) (ruleValue : JSValue) (_field : Option FieldElement) : Bool :=
  if !jsTruthy value then true
  else
    match value with
    | .arr l => numGe (some (l.length : Int)) (jsToNumber ruleValue)
    | v => numGe (some ((jsToString v).length : Int)) (jsToNumber ruleValue)

/-- Source `validateMaxLength`: falsy passes; arrays compare their element count,
other values their string length, against `Number(maxLength)`. -/
def validateMaxLength (value : JSValue) (ruleValue : JSValue) (_field : Option FieldElement) : Bool :=
  if !jsTruthy value then true
  else
    match value with
    | .arr l => numLe (some (l.length : Int)) (jsToNumber ruleValue)
    | v => numLe (some ((jsToString v).length : Int)) (jsToNumber ruleValue)

/-- Source `validateMin`: `null`/`undefined`/`""` pass; otherwise
`Number(value) >= Number(min)` (false on NaN). -/
def validateMin (value : JSValue) (ruleValue : JSValue) (_field : Option FieldElement) : Bool :=
  if value == JSValue.null || value == JSValue.undef || value == JSValue.str "" then true
  else numGe (jsToNumber value) (jsToNumber ruleValue)

/-- Source `validateMax`: `null`/`undefined`/`""` pass; otherwise
`Number(value) <= Number(max)` (false on NaN). -/
def validateMax (value : JSValue) (ruleValue : JSValue) (_field : Option FieldElement) : Bool :=
  if value == JSValue.null || value == JSValue.undef || value == JSValue.str "" then true
  else numLe (jsToNumber value) (jsToNumber ruleValue)

/-- Source `validatePattern`: falsy passes; a malformed pattern is caught and
fails closed; otherwise the compiled regex is tested on `String(value)`. -/
def validatePattern (env : JSEnv) (value : JSValue) (ruleValue : JSValue)
    (_field : Option FieldElement) : Bool :=
  if !jsTruthy value then true
  else
    match env.regexCompile (jsToString ruleValue) with
    | some test => test (jsToString value)
    | none => false

/-- Source `validateUrl`: falsy passes; otherwise `new URL(String(value))` must
not throw. -/
def validateUrl (env : JSEnv) (value : JSValue) (_ruleValue : JSValue)
    (_field : Option FieldElement) : Bool :=
  if !jsTruthy value then true
  else env.urlTest (jsToString value)

/-- Source `validatePhone`: falsy passes; otherwise the phone character-class
regex on `String(value)` with whitespace removed. Note: the source performs
no digit-count check. -/
def validatePhone (value : JSValue) (_ruleValue : JSValue) (_field : Option FieldElement) : Bool :=
  if !jsTruthy value then true
  else phoneRegexTest (stripJsSpaces (jsToString value))

/-- The `validatorsRegistry` table of `validators.ts`: rule name to
predicate. -/
def validatorsRegistry (env : JSEnv) :
    List (String × (JSValue → JSValue → Option FieldElement → Bool)) :=
  [("required", validateRequired),
   ("email", validateEmail),
   ("minLength", validateMinLength),
   ("maxLength", validateMaxLength),
   ("min", validateMin),
   ("max", validateMax),
   ("pattern", validatePattern env),
   ("url", validateUrl env),
   ("phone", validatePhone)]

/-- A declared validation rule (`ValidationRule` of `types.ts`): rule name,
optional parameter, optional custom error message, optional inline custom
validator (used by the `custom` rule kind). -/
structure ValidationRule where
  rule : String
  value : JSValue
  errorMessage : Option String
  customValidator : Option (JSValue → Bool)

/-- A plain rule with no parameter, message, or custom validator. -/
def mkRule (name : String) : ValidationRule := ⟨name, .undef, none, none⟩

/-- A rule with a parameter only. -/
def mkRuleV (name : String) (v : JSValue) : ValidationRule := ⟨name, v, none, none⟩

/-- Source `FieldConfig` of `types.ts`: owned by the orchestrator, keyed by field
name. -/
structure FieldConfig where
  name : String
  rules : List ValidationRule
  suppressWarnings : Option Bool

/-- One reported validation error (`ValidationError` of `types.ts`). -/
structure ValidationError where
  field : String
  message : String
  rule : String
deriving DecidableEq, Repr

/-- Source `ValidationResult` of `types.ts`. -/
structure ValidationResult where
  isValid : Bool
  errors : List ValidationError
deriving DecidableEq, Repr

/-- Source `FieldValidity`: an open map from flag name to boolean, written with
JS property-assignment semantics (later writes shadow earlier bindings). -/
abbrev FieldValidity := List (String × Bool)

/-- Property read `validity[k]`: `none` models `undefined`. -/
def getFlag (v : FieldValidity) (k : String) : Option Bool :=
  lookupAssoc v k

/-- Property write `validity[k] = b` (prepend; `getFlag` sees the newest
binding). -/
def setFlag (v : FieldValidity) (k : String) (b : Bool) : FieldValidity :=
  (k, b) :: v

/-- JS truthiness of `fieldValidity.valid` (a missing key is falsy). -/
def validityValid (v : FieldValidity) : Bool :=
  getFlag v "valid" == some true

/-- The orchestrator's state: the bound form's named elements, the
field-name → `FieldConfig` registry (a JS `Map`, insertion-ordered with
unique keys), instance configuration, plus the externally visible side
effects — displayed UI errors per field and the advisory `formGuard`
validity caches written onto elements. -/
structure FormState where
  elements : List (String × FieldElement)
  fields : List (String × FieldConfig)
  attributeMessages : List (String × String)
  customMessages : List (String × String)
  suppressAllWarnings : Bool
  uiErrors : List (String × String)
  caches : List (String × FieldValidity)

/-- Source `validateRule` (`validators.ts`): look the predicate up by rule name;
an unknown name warns (second component) and passes (fail-open). -/
def validateRule (env : JSEnv) (field : FieldElement) (value : JSValue)
    (rule : ValidationRule) : Bool × List String :=
  match lookupAssoc (validatorsRegistry env) rule.rule with
  | none => (true, ["FormGuard: Unknown validation rule: " ++ rule.rule])
  | some validator => (validator value rule.value (some field), [])

/-- The per-rule evaluation step shared by `validateField` and
`getFieldValidity` (`form-guard.ts`): a `custom` rule carrying an inline
validator bypasses the registry. -/
def evalFieldRule (env : JSEnv) (el : FieldElement) (value : JSValue)
    (rule : ValidationRule) : Bool :=
  if rule.rule == "custom" then
    match rule.customValidator with
    | some cv => cv value
    | none => (validateRule env el value rule).1
  else (validateRule env el value rule).1

/-- The rule loop of `validateField` (lines 298-312): stop at the first
failing rule.  Returns the overall boolean, the first failing rule
(`firstErrorRule`), and — as instrumentation of the loop — the list of
rules actually evaluated, in order. -/
def validateFieldLoop (env : JSEnv) (el : FieldElement) (value : JSValue) :
    List ValidationRule → Bool × Option ValidationRule × List ValidationRule
  | [] => (true, none, [])
  | r :: rs =>
    if evalFieldRule env el value r then
      let rest := validateFieldLoop env el value rs
      (rest.1, rest.2.1, r :: rest.2.2)
    else (false, some r, [r])

/-- Replace every occurrence of `pat` in `l` by `rep`
(fuel-structured so that it reduces in the kernel). -/
def replaceAllFuel (pat rep : List Char) : Nat → List Char → List Char
  | 0, l => l
  | _ + 1, [] => []
  | fuel + 1, c :: cs =>
    if !pat.isEmpty && (c :: cs).take pat.length == pat then
      rep ++ replaceAllFuel pat rep fuel (cs.drop (pat.length - 1))
    else c :: replaceAllFuel pat rep fuel cs

/-- Source `s.replace(/pat/g, rep)` for a literal pattern. -/
def jsReplaceAll (s pat rep : String) : String :=
  String.mk (replaceAllFuel pat.toList rep.toList s.toList.length s.toList)

/-- The instance's `defaultErrorMessages` table (`form-guard.ts`
constructor defaults; `customMessages` merging is the identity for the
default empty configuration). -/
def defaultErrorMessagesList : List (String × String) :=
  [("required", "Это поле обязательно для заполнения"),
   ("email", "Введите корректный email адрес"),
   ("minLength", "Длина должна быть не менее \x7bvalue\x7d символов"),
   ("maxLength", "Длина должна быть не более \x7bvalue\x7d символов"),
   ("min", "Значение должно быть не менее \x7bvalue\x7d"),
   ("max", "Значение должно быть не более \x7bvalue\x7d"),
   ("pattern", "Неверный формат"),
   ("url", "Введите корректный URL"),
   ("phone", "Введите корректный номер телефона"),
   ("custom", "Некорректное значение")]

/-- The fallback path of `createErrorMessage`: the default table with
`\x7bvalue\x7d` substituted by `String(rule.value || "")`, then a generic
message. -/
def createErrorMessageDefault (rule : ValidationRule) (fieldName : String)
    (defaultMessages : List (String × String)) : String :=
  match truthyLookup defaultMessages rule.rule with
  | some dm =>
    jsReplaceAll dm "\x7bvalue\x7d" (if jsTruthy rule.value then jsToString rule.value else "")
  | none => "Ошибка валидации поля \"" ++ fieldName ++ "\" по правилу: " ++ rule.rule

/-- Source `createErrorMessage` (`utils.ts`): a truthy custom message wins,
otherwise the default-table path. -/
def createErrorMessage (rule : ValidationRule) (fieldName : String)
    (defaultMessages : List (String × String)) : String :=
  match rule.errorMessage with
  | some m =>
    if m == "" then createErrorMessageDefault rule fieldName defaultMessages else m
  | none => createErrorMessageDefault rule fieldName defaultMessages

/-- Source `displayFieldError`: the error-container collaborator is modelled as a
field-name → message map of displayed errors. -/
def displayFieldError (st : FormState) (name : String) (rule : ValidationRule) : FormState :=
  { st with uiErrors :=
      setAssoc st.uiErrors name (createErrorMessage rule name defaultErrorMessagesList) }

/-- Source `clearFieldError` (`hideError` on the container). -/
def clearFieldError (st : FormState) (name : String) : FormState :=
  { st with uiErrors := st.uiErrors.filter (fun p => !(p.1 == name)) }

/-- Source `validateField` (`form-guard.ts` lines 278-323): an unregistered or
missing field passes vacuously (with a warning); otherwise run the
short-circuiting rule loop and, when `showUI` is set, display the first
violated rule's message or clear the field's error. -/
def validateField (env : JSEnv) (st : FormState) (name : String) (showUI : Bool) :
    Bool × FormState :=
  match lookupAssoc st.fields name with
  | none => (true, st)
  | some cfg =>
    match lookupAssoc st.elements name with
    | none => (true, st)
    | some el =>
      let r := validateFieldLoop env el el.value cfg.rules
      let stOut :=
        if showUI then
          match r.1, r.2.1 with
          | false, some fr => displayFieldError st name fr
          | _, _ => clearFieldError st name
        else st
      (r.1, stOut)

/-- The 11-entry validity object built from the native `ValidityState`
(`getFieldValidity` lines 408-420). -/
def baseValidity (nv : NativeValidity) : FieldValidity :=
  [("valid", true),
   ("valueMissing", nv.valueMissing),
   ("typeMismatch", nv.typeMismatch),
   ("patternMismatch", nv.patternMismatch),
   ("tooLong", nv.tooLong),
   ("tooShort", nv.tooShort),
   ("rangeUnderflow", nv.rangeUnderflow),
   ("rangeOverflow", nv.rangeOverflow),
   ("stepMismatch", nv.stepMismatch),
   ("badInput", nv.badInput),
   ("customError", nv.customError)]

/-- The native-style flag additionally set when a rule fails
(the `switch` of `getFieldValidity`, lines 444-470). -/
def nativeFlagFor : String → Option String
  | "required" => some "valueMissing"
  | "email" => some "typeMismatch"
  | "url" => some "typeMismatch"
  | "minLength" => some "tooShort"
  | "maxLength" => some "tooLong"
  | "min" => some "rangeUnderflow"
  | "max" => some "rangeOverflow"
  | "pattern" => some "patternMismatch"
  | "phone" => some "customError"
  | _ => none

/-- Apply the native-style flag for a failed rule, if any. -/
def applyNativeFlag (v : FieldValidity) (ruleName : String) : FieldValidity :=
  match nativeFlagFor ruleName with
  | some k => setFlag v k true
  | none => v

/-- The rule loop of `getFieldValidity` (lines 429-472): every rule is
evaluated (no short-circuit); a failure clears `allValid`, sets the
rule-specific mismatch flag and the matching native-style flag. -/
def validityLoop (env : JSEnv) (el : FieldElement) (value : JSValue) :
    List ValidationRule → FieldValidity → Bool → FieldValidity × Bool
  | [], v, allValid => (v, allValid)
  | r :: rs, v, allValid =>
    if evalFieldRule env el value r then validityLoop env el value rs v allValid
    else
      validityLoop env el value rs
        (applyNativeFlag (setFlag v (r.rule ++ "Mismatch") true) r.rule) false

/-- The pure validity computation of `getFieldValidity` for a present
element: native flags copied, then — when registered — the rule loop and
`validity.valid = allValid`; an unregistered field degrades with
`validity.valid = !nativeValidity.valid` (sic, line 423). -/
def computeFieldValidity (env : JSEnv) (el : FieldElement) (cfg : Option FieldConfig) :
    FieldValidity :=
  let nv := el.validity
  let base := baseValidity nv
  match cfg with
  | none => setFlag base "valid" (!nv.valid)
  | some c =>
    let r := validityLoop env el el.value c.rules base true
    setFlag r.1 "valid" r.2

/-- Source `getFieldValidity` (lines 395-479) as a function of the form's
elements and the field registry: a name that does not resolve to an
element throws; the advisory cache write is modelled separately by the
callers that perform it. -/
def getFieldValidityCore (env : JSEnv) (elements : List (String × FieldElement))
    (fields : List (String × FieldConfig)) (name : String) : Except String FieldValidity :=
  match lookupAssoc elements name with
  | none => Except.error ("FormGuard: поле \"" ++ name ++ "\" не найдено")
  | some el => Except.ok (computeFieldValidity env el (lookupAssoc fields name))

/-- Source `getFieldValidity` on the orchestrator state. -/
def getFieldValidity (env : JSEnv) (st : FormState) (name : String) :
    Except String FieldValidity :=
  getFieldValidityCore env st.elements st.fields name

/-- The `fields.forEach` loop of `validate` (lines 328-355): compute each
registered field's full validity (caching it on the element), and for an
invalid field resolve the first rule in declaration order whose
`<rule>Mismatch` flag is set, record one error and display it; a valid
field's error display is cleared. -/
def validateLoop (env : JSEnv) :
    List (String × FieldConfig) → FormState → List ValidationError →
    Except String (List ValidationError × FormState)
  | [], st, errs => Except.ok (errs, st)
  | p :: rest, st, errs =>
    match getFieldValidityCore env st.elements st.fields p.1 with
    | Except.error e => Except.error e
    | Except.ok validity =>
      let st1 : FormState := { st with caches := setAssoc st.caches p.1 validity }
      if validityValid validity then
        validateLoop env rest (clearFieldError st1 p.1) errs
      else
        match p.2.rules.find? (fun r => getFlag validity (r.rule ++ "Mismatch") == some true) with
        | some vr =>
          validateLoop env rest (displayFieldError st1 p.1 vr)
            (errs ++ [⟨p.1, createErrorMessage vr p.1 defaultErrorMessagesList, vr.rule⟩])
        | none => validateLoop env rest st1 errs

/-- Source `validate` (lines 325-361): full-form pass; `isValid` iff no errors. -/
def validate (env : JSEnv) (st : FormState) : Except String (ValidationResult × FormState) :=
  match validateLoop env st.fields st [] with
  | Except.error e => Except.error e
  | Except.ok (errs, stOut) => Except.ok (⟨errs.isEmpty, errs⟩, stOut)

/-- Source `getAttributeErrorMessage` (lines 253-276): instance attribute
messages, then configured custom messages, then a `data-<attr>-message`
attribute, then the `title` attribute. -/
def getAttributeErrorMessage (st : FormState) (attrName : String) (field : FieldElement) :
    Option String :=
  match truthyLookup st.attributeMessages attrName with
  | some m => some m
  | none =>
    match truthyLookup st.customMessages attrName with
    | some m => some m
    | none =>
      match getAttrT field ("data-" ++ attrName ++ "-message") with
      | some m => some m
      | none => getAttrT field "title"

/-- Source `parseInt(s, 10)` restricted to the decimal-integer subset: optional
sign then leading digits; no digits parses to NaN. -/
def parseIntJS (s : String) : JSValue :=
  let cs := s.toList.dropWhile isJsSpace
  match cs with
  | '-' :: rest =>
    let ds := rest.takeWhile Char.isDigit
    if ds.isEmpty then JSValue.nan else JSValue.num (-(digitsToNat ds : Int))
  | '+' :: rest =>
    let ds := rest.takeWhile Char.isDigit
    if ds.isEmpty then JSValue.nan else JSValue.num (digitsToNat ds)
  | _ =>
    let ds := cs.takeWhile Char.isDigit
    if ds.isEmpty then JSValue.nan else JSValue.num (digitsToNat ds)

/-- Source `syncWithHTMLAttributes` (lines 162-251): collect the rules implied by
the element's HTML attributes, each with its resolved attribute message.
`parseFloat` is modelled on the same decimal-integer subset as `parseInt`. -/
def collectHtmlRules (st : FormState) (field : FieldElement) : List ValidationRule :=
  (if hasAttr field "required" then
    [⟨"required", JSValue.undef, getAttributeErrorMessage st "required" field, none⟩]
  else []) ++
  (match getAttrT field "minlength" with
   | some v => [⟨"minLength", parseIntJS v, getAttributeErrorMessage st "minlength" field, none⟩]
   | none => []) ++
  (match getAttrT field "maxlength" with
   | some v => [⟨"maxLength", parseIntJS v, getAttributeErrorMessage st "maxlength" field, none⟩]
   | none => []) ++
  (match getAttrT field "min" with
   | some v => [⟨"min", parseIntJS v, getAttributeErrorMessage st "min" field, none⟩]
   | none => []) ++
  (match getAttrT field "max" with
   | some v => [⟨"max", parseIntJS v, getAttributeErrorMessage st "max" field, none⟩]
   | none => []) ++
  (match getAttrT field "pattern" with
   | some v => [⟨"pattern", JSValue.str v, getAttributeErrorMessage st "pattern" field, none⟩]
   | none => []) ++
  (if getAttrT field "type" == some "email" then
    [⟨"email", JSValue.undef, getAttributeErrorMessage st "email" field, none⟩]
  else []) ++
  (if getAttrT field "type" == some "url" then
    [⟨"url", JSValue.undef, getAttributeErrorMessage st "url" field, none⟩]
  else [])

/-- The merge step of `syncWithHTMLAttributes`: HTML-derived rules are
appended only when no declared rule of the same name exists. -/
def syncWithHTMLAttributes (st : FormState) (field : FieldElement)
    (jsRules : List ValidationRule) : List ValidationRule :=
  (collectHtmlRules st field).foldl
    (fun acc hr => if acc.any (fun r => r.rule == hr.rule) then acc else acc ++ [hr])
    jsRules

/-- Source `addField` (lines 129-160): a name that does not resolve to a form
element throws before any mutation; otherwise the declared rules are
synchronized with the HTML attributes and the registry entry is set.
(`checkRuleConflicts` only emits console warnings and is omitted.) -/
def addField (st : FormState) (name : String) (rules : List ValidationRule)
    (options : Option Bool) : Except String FormState :=
  match lookupAssoc st.elements name with
  | none => Except.error ("FormGuard: поле \"" ++ name ++ "\" не найдено в форме")
  | some el =>
    let syncRules := syncWithHTMLAttributes st el rules
    Except.ok
      { st with fields := setAssoc st.fields name ⟨name, syncRules, options⟩ }

/-- Source `addField` as the caller observes it: on a throw the state — in
particular the field registry — is unchanged. -/
def addFieldState (st : FormState) (name : String) (rules : List ValidationRule)
    (options : Option Bool) : FormState :=
  match addField st name rules options with
  | Except.ok stOut => stOut
  | Except.error _ => st

/-- The per-field error produced by one iteration of the `validate` loop,
expressed as a function of the form's elements and the registry. -/
def fieldError (env : JSEnv) (E : List (String × FieldElement))
    (F : List (String × FieldConfig)) (p : String × FieldConfig) : Option ValidationError :=
  match getFieldValidityCore env E F p.1 with
  | Except.error _ => none
  | Except.ok validity =>
    if validityValid validity then none
    else
      match p.2.rules.find? (fun r => getFlag validity (r.rule ++ "Mismatch") == some true) with
      | some vr => some ⟨p.1, createErrorMessage vr p.1 defaultErrorMessagesList, vr.rule⟩
      | none => none

/-- Whether a field's full validity snapshot is invalid. -/
def fieldInvalid (env : JSEnv) (E : List (String × FieldElement))
    (F : List (String × FieldConfig)) (name : String) : Bool :=
  match getFieldValidityCore env E F name with
  | Except.ok v => !(validityValid v)
  | Except.error _ => false

/-- A concrete host environment for witnesses (its behaviour is irrelevant
to the statements it instantiates). -/
def env0 : JSEnv := ⟨fun _ => false, fun _ => none⟩

/-- An unconstrained text input currently holding `"15"`. -/
def elAge : FieldElement := ⟨"text", .str "15", [], nativeOk⟩

/-- The `age` registration of the spec's concrete scenario:
`[{rule:"required"}, {rule:"min", value:18}]`. -/
def cfgAge : FieldConfig := ⟨"age", [mkRule "required", mkRuleV "min" (.num 18)], none⟩

/-- A form with the single field `age` = `"15"` registered as above. -/
def stAge : FormState := ⟨[("age", elAge)], [("age", cfgAge)], [], [], false, [], []⟩

/-- An unconstrained empty text input. -/
def elEmpty : FieldElement := ⟨"text", .str "", [], nativeOk⟩

/-- An unconstrained text input holding `"hi"`. -/
def elHi : FieldElement := ⟨"text", .str "hi", [], nativeOk⟩

/-- A form holding one `email` element that is never registered via
`addField`; its native validity is clean (`valid = true`). -/
def stUnregistered : FormState := ⟨[("email", elEmpty)], [], [], [], false, [], []⟩

/-- Registration of field `a` with a single `required` rule. -/
def cfgA : FieldConfig := ⟨"a", [mkRule "required"], none⟩

/-- Registration of field `b` with a single `minLength 5` rule. -/
def cfgB : FieldConfig := ⟨"b", [mkRuleV "minLength" (.num 5)], none⟩

/-- A form with two registered fields that are both invalid: `a` is empty
but required, `b` holds `"hi"` against `minLength 5`. -/
def stTwoBad : FormState :=
  ⟨[("a", elEmpty), ("b", elHi)], [("a", cfgA), ("b", cfgB)], [], [], false, [], []⟩

/-- Registration of field `a` with rules `[required, email]` in that order. -/
def cfgShort : FieldConfig := ⟨"a", [mkRule "required", mkRule "email"], none⟩

/-- A form whose field `a` is empty and registered with `[required, email]`:
the `required` rule fails first. -/
def stShort : FormState := ⟨[("a", elEmpty)], [("a", cfgShort)], [], [], false, [], []⟩

/-- A form with no elements at all. -/
def stEmptyForm : FormState := ⟨[], [], [], [], false, [], []⟩

section Lemmas

/-- Reading back a flag just written. -/
theorem getFlag_setFlag (v : FieldValidity) (k kr : String) (b : Bool) :
    getFlag (setFlag v k b) kr = if kr = k then some b else getFlag v kr := by
  by_cases h : kr = k
  · subst h
    simp [getFlag, setFlag, lookupAssoc, List.find?]
  · have hne : (k == kr) = false := beq_eq_false_iff_ne.mpr (Ne.symm h)
    simp [getFlag, setFlag, lookupAssoc, List.find?, h, hne]

/-- A `<rule>Mismatch` key is never the `valid` key. -/
theorem mismatchKey_ne_valid (s : String) : s ++ "Mismatch" ≠ "valid" := by
  intro h
  have hl : (s ++ "Mismatch").length = ("valid" : String).length := by rw [h]
  have h8 : ("Mismatch" : String).length = 8 := rfl
  have h5 : ("valid" : String).length = 5 := rfl
  rw [String.length_append, h8, h5] at hl
  omega

/-- Prepending a `true` binding preserves flags already reading `some true`. -/
theorem getFlag_setFlag_true_mono (v : FieldValidity) (k kr : String)
    (h : getFlag v kr = some true) : getFlag (setFlag v k true) kr = some true := by
  rw [getFlag_setFlag]
  split <;> simp [h]

/-- Source `applyNativeFlag` only writes `true`, so it preserves flags reading
`some true`. -/
theorem getFlag_applyNativeFlag_mono (v : FieldValidity) (rn kr : String)
    (h : getFlag v kr = some true) : getFlag (applyNativeFlag v rn) kr = some true := by
  unfold applyNativeFlag
  cases nativeFlagFor rn with
  | none => exact h
  | some k => exact getFlag_setFlag_true_mono v k kr h

/-- The accumulator flag of the `getFieldValidity` rule loop is the
conjunction of the seed with all rule outcomes. -/
theorem validityLoop_snd (env : JSEnv) (el : FieldElement) (val : JSValue) :
    ∀ (rules : List ValidationRule) (v : FieldValidity) (b : Bool),
      (validityLoop env el val rules v b).2 = (b && rules.all (evalFieldRule env el val)) := by
  intro rules
  induction rules with
  | nil => intro v b; simp [validityLoop]
  | cons r rs ih =>
    intro v b
    cases h : evalFieldRule env el val r <;>
      simp [validityLoop, h, ih, List.all_cons, Bool.and_assoc]

/-- Loop writes only set flags to `true`, so `some true` flags persist. -/
theorem getFlag_validityLoop_mono (env : JSEnv) (el : FieldElement) (val : JSValue) :
    ∀ (rules : List ValidationRule) (v : FieldValidity) (b : Bool) (kr : String),
      getFlag v kr = some true →
      getFlag (validityLoop env el val rules v b).1 kr = some true := by
  intro rules
  induction rules with
  | nil => intro v b kr h; simpa [validityLoop] using h
  | cons r rs ih =>
    intro v b kr h
    cases he : evalFieldRule env el val r
    · simp only [validityLoop, he, if_neg]
      exact ih _ _ _ (getFlag_applyNativeFlag_mono _ _ _ (getFlag_setFlag_true_mono _ _ _ h))
    · simpa [validityLoop, he] using ih _ _ _ h

/-- A failing rule's mismatch flag is set by the loop. -/
theorem getFlag_validityLoop_of_fail (env : JSEnv) (el : FieldElement) (val : JSValue) :
    ∀ (rules : List ValidationRule) (v : FieldValidity) (b : Bool) (r : ValidationRule),
      r ∈ rules → evalFieldRule env el val r = false →
      getFlag (validityLoop env el val rules v b).1 (r.rule ++ "Mismatch") = some true := by
  intro rules
  induction rules with
  | nil => intro v b r hmem; exact absurd hmem (List.not_mem_nil r)
  | cons a rs ih =>
    intro v b r hmem hfail
    rcases List.mem_cons.mp hmem with heq | htail
    · subst heq
      simp only [validityLoop, hfail, if_neg, Bool.false_eq_true, not_false_eq_true]
      refine getFlag_validityLoop_mono env el val rs _ false _ ?_
      refine getFlag_applyNativeFlag_mono _ _ _ ?_
      rw [getFlag_setFlag]
      simp
    · cases he : evalFieldRule env el val a
      · simp only [validityLoop, he, Bool.false_eq_true, if_neg, not_false_eq_true]
        exact ih _ _ _ htail hfail
      · simpa [validityLoop, he] using ih _ _ _ htail hfail

/-- The `valid` flag computed for a registered field is the conjunction of
all rule outcomes. -/
theorem validityValid_computeFieldValidity (env : JSEnv) (el : FieldElement)
    (cfg : FieldConfig) :
    validityValid (computeFieldValidity env el (some cfg)) =
      cfg.rules.all (evalFieldRule env el el.value) := by
  unfold computeFieldValidity validityValid
  rw [getFlag_setFlag]
  simp [validityLoop_snd]

/-- A failing rule's mismatch flag is set in the full validity snapshot. -/
theorem getFlag_computeFieldValidity_of_fail (env : JSEnv) (el : FieldElement)
    (cfg : FieldConfig) (r : ValidationRule) (hmem : r ∈ cfg.rules)
    (hfail : evalFieldRule env el el.value r = false) :
    getFlag (computeFieldValidity env el (some cfg)) (r.rule ++ "Mismatch") = some true := by
  unfold computeFieldValidity
  rw [getFlag_setFlag, if_neg (mismatchKey_ne_valid r.rule)]
  exact getFlag_validityLoop_of_fail env el el.value cfg.rules _ true r hmem hfail

/-- An invalid registered field always yields a first rule whose mismatch
flag is set (the rule that failed sets its own flag). -/
theorem find?_mismatch_isSome (env : JSEnv) (el : FieldElement) (cfg : FieldConfig)
    (h : validityValid (computeFieldValidity env el (some cfg)) = false) :
    (cfg.rules.find? (fun r =>
      getFlag (computeFieldValidity env el (some cfg)) (r.rule ++ "Mismatch") == some true)).isSome := by
  rw [validityValid_computeFieldValidity] at h
  have hex : ∃ r ∈ cfg.rules, evalFieldRule env el el.value r = false := by
    by_contra hc
    push_neg at hc
    have : cfg.rules.all (evalFieldRule env el el.value) = true := by
      rw [List.all_eq_true]
      intro r hr
      cases he : evalFieldRule env el el.value r
      · exact absurd he (hc r hr)
      · rfl
    rw [this] at h
    exact Bool.true_eq_false.mp h
  obtain ⟨r, hmem, hfail⟩ := hex
  rw [List.find?_isSome]
  exact ⟨r, hmem, by
    rw [getFlag_computeFieldValidity_of_fail env el cfg r hmem hfail]
    rfl⟩

/-- The boolean of the short-circuiting `validateField` loop is the
conjunction of all rule outcomes. -/
theorem validateFieldLoop_fst (env : JSEnv) (el : FieldElement) (val : JSValue) :
    ∀ rules : List ValidationRule,
      (validateFieldLoop env el val rules).1 = rules.all (evalFieldRule env el val) := by
  intro rules
  induction rules with
  | nil => simp [validateFieldLoop]
  | cons r rs ih =>
    cases h : evalFieldRule env el val r <;> simp [validateFieldLoop, h, ih]

/-- A key present in an association list with `Nodup` keys looks up to the
entry's own value. -/
theorem lookupAssoc_of_mem_nodup {α : Type} :
    ∀ (l : List (String × α)), (l.map Prod.fst).Nodup → ∀ p ∈ l, lookupAssoc l p.1 = some p.2 := by
  intro l
  induction l with
  | nil => intro _ p hp; exact absurd hp (List.not_mem_nil p)
  | cons q rest ih =>
    intro hnd p hp
    rw [List.map_cons, List.nodup_cons] at hnd
    rcases List.mem_cons.mp hp with heq | htail
    · subst heq
      simp [lookupAssoc, List.find?]
    · have hne : q.1 ≠ p.1 := by
        intro hqp
        exact hnd.1 (hqp ▸ List.mem_map_of_mem Prod.fst htail)
      have hbeq : (q.1 == p.1) = false := beq_eq_false_iff_ne.mpr hne
      have := ih hnd.2 p htail
      simpa [lookupAssoc, List.find?, hbeq] using this

/-- Access to a present element yields an `ok` full-validity snapshot. -/
theorem getFieldValidityCore_ok (env : JSEnv) (E : List (String × FieldElement))
    (F : List (String × FieldConfig)) (name : String) (el : FieldElement)
    (hel : lookupAssoc E name = some el) :
    getFieldValidityCore env E F name =
      Except.ok (computeFieldValidity env el (lookupAssoc F name)) := by
  unfold getFieldValidityCore
  rw [hel]

/-- Evaluation of `fieldError` at a present element. -/
theorem fieldError_of_el (env : JSEnv) (E : List (String × FieldElement))
    (F : List (String × FieldConfig)) (p : String × FieldConfig) (el : FieldElement)
    (hel : lookupAssoc E p.1 = some el) :
    fieldError env E F p =
      (if validityValid (computeFieldValidity env el (lookupAssoc F p.1)) then none
       else
         match p.2.rules.find? (fun r =>
           getFlag (computeFieldValidity env el (lookupAssoc F p.1)) (r.rule ++ "Mismatch")
             == some true) with
         | some vr => some ⟨p.1, createErrorMessage vr p.1 defaultErrorMessagesList, vr.rule⟩
         | none => none) := by
  unfold fieldError
  rw [getFieldValidityCore_ok env E F p.1 el hel]

/-- With a present element and a coherent registry entry, `fieldError`
fires exactly on the invalid fields, and a produced error carries the
field's own name. -/
theorem fieldError_spec (env : JSEnv) (E : List (String × FieldElement))
    (F : List (String × FieldConfig)) (p : String × FieldConfig)
    (hF : lookupAssoc F p.1 = some p.2) (hE : (lookupAssoc E p.1).isSome) :
    (fieldError env E F p).isSome = fieldInvalid env E F p.1 ∧
      ∀ e, fieldError env E F p = some e → e.field = p.1 := by
  obtain ⟨el, hel⟩ := Option.isSome_iff_exists.mp hE
  have hfe := fieldError_of_el env E F p el hel
  have hinv : fieldInvalid env E F p.1 =
      !(validityValid (computeFieldValidity env el (lookupAssoc F p.1))) := by
    unfold fieldInvalid
    rw [getFieldValidityCore_ok env E F p.1 el hel]
  rw [hF] at hfe hinv
  by_cases hv : validityValid (computeFieldValidity env el (some p.2)) = true
  · rw [hfe, if_pos hv, hinv, hv]
    exact ⟨rfl, fun e he => absurd he (by simp)⟩
  · have hv' : validityValid (computeFieldValidity env el (some p.2)) = false :=
      Bool.eq_false_iff.mpr hv
    obtain ⟨vr, hvr⟩ := Option.isSome_iff_exists.mp (find?_mismatch_isSome env el p.2 hv')
    rw [hfe, if_neg hv, hvr, hinv, hv']
    refine ⟨rfl, fun e he => ?_⟩
    cases he
    rfl

/-- The per-field error list produced over a block of registered fields
enumerates, in order, exactly the invalid fields. -/
theorem filterMap_fieldError_map_field (env : JSEnv) (E : List (String × FieldElement))
    (F : List (String × FieldConfig)) :
    ∀ l : List (String × FieldConfig),
      (∀ p ∈ l, lookupAssoc F p.1 = some p.2 ∧ (lookupAssoc E p.1).isSome) →
      (l.filterMap (fieldError env E F)).map ValidationError.field =
        (l.filter (fun p => fieldInvalid env E F p.1)).map Prod.fst := by
  intro l
  induction l with
  | nil => intro _; simp
  | cons p rest ih =>
    intro hall
    obtain ⟨hF, hE⟩ := hall p (List.mem_cons_self p rest)
    obtain ⟨hiff, hname⟩ := fieldError_spec env E F p hF hE
    have htail := ih (fun q hq => hall q (List.mem_cons_of_mem p hq))
    cases hfe : fieldError env E F p with
    | none =>
      have hinv : fieldInvalid env E F p.1 = false := by
        rw [← hiff, hfe]; rfl
      simp [List.filterMap_cons, List.filter_cons, hfe, hinv, htail]
    | some e =>
      have hinv : fieldInvalid env E F p.1 = true := by
        rw [← hiff, hfe]; rfl
      have hf := hname e hfe
      simp [List.filterMap_cons, List.filter_cons, hfe, hinv, hf, htail]

/-- The full specification of the `validate` loop over a block of fields
whose elements are present: it succeeds, appends exactly the per-field
errors of `fieldError`, and leaves the elements and the registry intact. -/
theorem validateLoop_ok (env : JSEnv) (E : List (String × FieldElement))
    (F : List (String × FieldConfig)) :
    ∀ (l : List (String × FieldConfig)) (st : FormState) (errs : List ValidationError),
      st.elements = E → st.fields = F →
      (∀ p ∈ l, (lookupAssoc E p.1).isSome) →
      ∃ stOut, validateLoop env l st errs =
          Except.ok (errs ++ l.filterMap (fieldError env E F), stOut) ∧
        stOut.elements = E ∧ stOut.fields = F := by
  intro l
  induction l with
  | nil =>
    intro st errs hE hF _
    exact ⟨st, by simp [validateLoop], hE, hF⟩
  | cons p rest ih =>
    intro st errs hE hF hall
    obtain ⟨el, hel⟩ := Option.isSome_iff_exists.mp (hall p (List.mem_cons_self p rest))
    have hcoreSt : getFieldValidityCore env st.elements st.fields p.1 =
        Except.ok (computeFieldValidity env el (lookupAssoc F p.1)) := by
      rw [hE, hF]
      exact getFieldValidityCore_ok env E F p.1 el hel
    have hfe := fieldError_of_el env E F p el hel
    have htail := fun q hq => hall q (List.mem_cons_of_mem p hq)
    set cv := computeFieldValidity env el (lookupAssoc F p.1) with hcv
    by_cases hv : validityValid cv = true
    · rw [if_pos hv] at hfe
      obtain ⟨stOut, hloop, hOE, hOF⟩ :=
        ih (clearFieldError { st with caches := setAssoc st.caches p.1 cv } p.1) errs
          (by simp [clearFieldError, hE]) (by simp [clearFieldError, hF]) htail
      refine ⟨stOut, ?_, hOE, hOF⟩
      simp only [validateLoop, hcoreSt, hv, if_true, List.filterMap_cons, hfe]
      exact hloop
    · have hv' : validityValid cv = false := Bool.eq_false_iff.mpr hv
      rw [if_neg hv] at hfe
      cases hfind : p.2.rules.find? (fun r =>
          getFlag cv (r.rule ++ "Mismatch") == some true) with
      | some vr =>
        rw [hfind] at hfe
        obtain ⟨stOut, hloop, hOE, hOF⟩ :=
          ih (displayFieldError { st with caches := setAssoc st.caches p.1 cv } p.1 vr)
            (errs ++ [⟨p.1, createErrorMessage vr p.1 defaultErrorMessagesList, vr.rule⟩])
            (by simp [displayFieldError, hE]) (by simp [displayFieldError, hF]) htail
        refine ⟨stOut, ?_, hOE, hOF⟩
        simp only [validateLoop, hcoreSt, hv', Bool.false_eq_true, if_false, hfind,
          List.filterMap_cons, hfe]
        rw [hloop]
        simp
      | none =>
        rw [hfind] at hfe
        obtain ⟨stOut, hloop, hOE, hOF⟩ :=
          ih { st with caches := setAssoc st.caches p.1 cv } errs
            (by simpa using hE) (by simpa using hF) htail
        refine ⟨stOut, ?_, hOE, hOF⟩
        simp only [validateLoop, hcoreSt, hv', Bool.false_eq_true, if_false, hfind,
          List.filterMap_cons, hfe]
        exact hloop

end Lemmas

section Claims

/-- C1 (code bug): for a field name that resolves to an element of the bound
form but has not been registered, the claim says `getFieldValidity` degrades
to the element's native constraint-validation validity; the code instead
sets the returned `valid` flag to the NEGATION of the native `valid` flag
(`validity.valid = !nativeValidity.valid`).  At the concrete failing input —
an unregistered field whose native validity is clean (`valid = true`) — the
returned snapshot reads `valid = false`.  The second conjunct records the
native flag of the input; the third confirms the claim's throwing half: a
name that does not resolve to an element raises a lookup error. -/
theorem C1_getFieldValidity_native_degradation_bug :
    (getFieldValidity env0 stUnregistered "email").map validityValid = Except.ok false ∧
    elEmpty.validity.valid = true ∧
    getFieldValidity env0 stUnregistered "missing" =
      Except.error "FormGuard: поле \"missing\" не найдено" :=
  ⟨rfl, rfl, rfl⟩

/-- C2 (code bug): the claim (and the repository's own test suite) requires
the phone validator to demand 10–15 digits after stripping separators, so
`validatePhone("123")` should be false; the code only checks the character
class `^[\+]?[0-9\s\-\(\)]+$` with no digit count, so `"123"` passes.  The
remaining conjuncts show the cases on which code and claim agree:
`"+12345678901"` true, `"abc"` false, `""` true. -/
theorem C2_validatePhone_no_digit_count_bug :
    validatePhone (.str "123") .undef none = true ∧
    validatePhone (.str "+12345678901") .undef none = true ∧
    validatePhone (.str "abc") .undef none = false ∧
    validatePhone (.str "") .undef none = true :=
  ⟨by decide, by decide, by decide, by decide⟩

/-- C3 counterexample: the claim asserts that every "empty passes" rule
returns true on the empty array, but an empty array is truthy in JS, so
`validateEmail([])` falls through to the regex test on `String([]) = ""`
and returns false; likewise `validateMinLength([], 3)` compares `0 >= 3`
and returns false. -/
theorem C3_empty_array_counterexample :
    validateEmail (.arr []) (.num 3) none = false ∧
    validateMinLength (.arr []) (.num 3) none = false :=
  ⟨by decide, by decide⟩

/-- C3 (amended): for the built-in rules with an "empty passes" policy
(email, url, phone, minLength, maxLength, min, max, pattern), each of the
empty inputs `null`, `undefined` and the empty string passes, for any rule
parameter, any field context and any host environment; the empty array is
NOT treated as empty by these predicates (see the counterexample). -/
theorem C3_empty_inputs_pass_amended (env : JSEnv) (param : JSValue)
    (field : Option FieldElement) (v : JSValue)
    (h : v = JSValue.null ∨ v = JSValue.undef ∨ v = JSValue.str "") :
    validateEmail v param field = true ∧
    validateUrl env v param field = true ∧
    validatePhone v param field = true ∧
    validateMinLength v param field = true ∧
    validateMaxLength v param field = true ∧
    validateMin v param field = true ∧
    validateMax v param field = true ∧
    validatePattern env v param field = true := by
  rcases h with rfl | rfl | rfl <;>
    exact ⟨rfl, rfl, rfl, rfl, rfl, rfl, rfl, rfl⟩

/-- Witness for C3 (amended), at the empty string with parameter `5`. -/
theorem C3_empty_inputs_pass_amended_witness :
    (JSValue.str "" = JSValue.null ∨ JSValue.str "" = JSValue.undef ∨
      JSValue.str "" = JSValue.str "") ∧
    (validateEmail (JSValue.str "") (JSValue.num 5) none = true ∧
     validateUrl env0 (JSValue.str "") (JSValue.num 5) none = true ∧
     validatePhone (JSValue.str "") (JSValue.num 5) none = true ∧
     validateMinLength (JSValue.str "") (JSValue.num 5) none = true ∧
     validateMaxLength (JSValue.str "") (JSValue.num 5) none = true ∧
     validateMin (JSValue.str "") (JSValue.num 5) none = true ∧
     validateMax (JSValue.str "") (JSValue.num 5) none = true ∧
     validatePattern env0 (JSValue.str "") (JSValue.num 5) none = true) :=
  ⟨Or.inr (Or.inr rfl),
   C3_empty_inputs_pass_amended env0 (JSValue.num 5) none (JSValue.str "")
     (Or.inr (Or.inr rfl))⟩

/-- C4 (confirmed): on a registered, present field whose rule list starts
with a failing rule `A`, `validateField` evaluates rules in declared order,
stops at `A` (the evaluation trace is exactly `[A]`, so no later rule is
ever evaluated), reports `A` as the violated rule, and returns false. -/
theorem C4_validateField_short_circuit (env : JSEnv) (st : FormState) (name : String)
    (cfg : FieldConfig) (el : FieldElement) (A : ValidationRule) (rest : List ValidationRule)
    (hf : lookupAssoc st.fields name = some cfg) (he : lookupAssoc st.elements name = some el)
    (hrules : cfg.rules = A :: rest) (hfail : evalFieldRule env el el.value A = false) :
    validateFieldLoop env el el.value cfg.rules = (false, some A, [A]) ∧
      (validateField env st name false).1 = false := by
  have h1 : validateFieldLoop env el el.value cfg.rules = (false, some A, [A]) := by
    rw [hrules]
    simp [validateFieldLoop, hfail]
  refine ⟨h1, ?_⟩
  simp only [validateField, hf, he, h1]

/-- Witness for C4: field `a` is empty with rules `[required, email]`; the
`required` rule fails, the trace is `[required]` (the email rule is never
evaluated), and `validateField` returns false. -/
theorem C4_validateField_short_circuit_witness :
    validateFieldLoop env0 elEmpty elEmpty.value cfgShort.rules =
      (false, some (mkRule "required"), [mkRule "required"]) ∧
      (validateField env0 stShort "a" false).1 = false :=
  C4_validateField_short_circuit env0 stShort "a" cfgShort elEmpty
    (mkRule "required") [mkRule "email"] rfl rfl rfl rfl

/-- C5 (confirmed): when every registered field resolves to an element
(and registry keys are unique, as for a JS `Map`), `validate()` succeeds
and: the error list enumerates, in registration order, exactly the invalid
fields (one entry each); every reported entry names the first rule in its
field's declaration order whose mismatch flag is set, with the message
built from that rule; and `isValid` holds iff the error list is empty. -/
theorem C5_validate_one_error_per_invalid_field (env : JSEnv) (st : FormState)
    (hall : ∀ p ∈ st.fields, (lookupAssoc st.elements p.1).isSome)
    (hnd : (st.fields.map Prod.fst).Nodup) :
    ∃ res stOut, validate env st = Except.ok (res, stOut) ∧
      res.errors.map ValidationError.field =
        (st.fields.filter (fun p => fieldInvalid env st.elements st.fields p.1)).map Prod.fst ∧
      (∀ e ∈ res.errors, ∃ p, p ∈ st.fields ∧ p.1 = e.field ∧
        ∃ v vr, getFieldValidityCore env st.elements st.fields e.field = Except.ok v ∧
          validityValid v = false ∧
          p.2.rules.find? (fun r => getFlag v (r.rule ++ "Mismatch") == some true) = some vr ∧
          e.rule = vr.rule ∧
          e.message = createErrorMessage vr e.field defaultErrorMessagesList) ∧
      res.isValid = res.errors.isEmpty := by
  obtain ⟨stOut, hloop, hOE, hOF⟩ :=
    validateLoop_ok env st.elements st.fields st.fields st [] rfl rfl hall
  refine ⟨⟨(st.fields.filterMap (fieldError env st.elements st.fields)).isEmpty,
      st.fields.filterMap (fieldError env st.elements st.fields)⟩, stOut, ?_, ?_, ?_, rfl⟩
  · simp only [validate, hloop]
    simp
  · apply filterMap_fieldError_map_field
    intro p hp
    exact ⟨lookupAssoc_of_mem_nodup st.fields hnd p hp, hall p hp⟩
  · intro e he
    obtain ⟨p, hp, hpe⟩ := List.mem_filterMap.mp he
    obtain ⟨el, hel⟩ := Option.isSome_iff_exists.mp (hall p hp)
    have hfe := fieldError_of_el env st.elements st.fields p el hel
    rw [hfe] at hpe
    by_cases hv :
        validityValid (computeFieldValidity env el (lookupAssoc st.fields p.1)) = true
    · rw [if_pos hv] at hpe
      exact absurd hpe (by simp)
    · rw [if_neg hv] at hpe
      cases hfind : p.2.rules.find? (fun r =>
          getFlag (computeFieldValidity env el (lookupAssoc st.fields p.1))
            (r.rule ++ "Mismatch") == some true) with
      | none =>
        rw [hfind] at hpe
        exact absurd hpe (by simp)
      | some vr =>
        rw [hfind] at hpe
        cases hpe
        exact ⟨p, hp, rfl, computeFieldValidity env el (lookupAssoc st.fields p.1), vr,
          getFieldValidityCore_ok env st.elements st.fields p.1 el hel,
          Bool.eq_false_iff.mpr hv, hfind, rfl, rfl⟩

/-- Witness for C5: a form with two invalid registered fields satisfies the
hypotheses, and `validate` reports exactly two errors, one per field,
naming the first-violated rules `required` and `minLength`. -/
theorem C5_validate_one_error_per_invalid_field_witness :
    (∀ p ∈ stTwoBad.fields, (lookupAssoc stTwoBad.elements p.1).isSome) ∧
    (stTwoBad.fields.map Prod.fst).Nodup ∧
    (∃ res stOut, validate env0 stTwoBad = Except.ok (res, stOut) ∧
      res.errors.map ValidationError.field =
        (stTwoBad.fields.filter
          (fun p => fieldInvalid env0 stTwoBad.elements stTwoBad.fields p.1)).map Prod.fst ∧
      (∀ e ∈ res.errors, ∃ p, p ∈ stTwoBad.fields ∧ p.1 = e.field ∧
        ∃ v vr, getFieldValidityCore env0 stTwoBad.elements stTwoBad.fields e.field =
            Except.ok v ∧
          validityValid v = false ∧
          p.2.rules.find? (fun r => getFlag v (r.rule ++ "Mismatch") == some true) = some vr ∧
          e.rule = vr.rule ∧
          e.message = createErrorMessage vr e.field defaultErrorMessagesList) ∧
      res.isValid = res.errors.isEmpty) ∧
    (validate env0 stTwoBad).map (fun q => (q.1.errors.length, q.1.errors.map ValidationError.rule)) =
      Except.ok (2, ["required", "minLength"]) :=
  ⟨by decide, by decide,
   C5_validate_one_error_per_invalid_field env0 stTwoBad (by decide) (by decide),
   by rfl⟩

/-- C6 (confirmed): in the concrete scenario — field `age` registered with
`[{rule:"required"}, {rule:"min", value:18}]`, current value `"15"`, clean
native state — `validateField("age")` returns false and
`getFieldValidity("age")` reads `valid:false`, `minMismatch:true`,
`rangeUnderflow:true`, `valueMissing:false`: a failing rule sets both its
rule-specific mismatch flag and the matching native-style flag. -/
theorem C6_age_scenario :
    (validateField env0 stAge "age" false).1 = false ∧
    (getFieldValidity env0 stAge "age").map (fun v =>
      (getFlag v "valid", getFlag v "minMismatch", getFlag v "rangeUnderflow",
        getFlag v "valueMissing")) =
      Except.ok (some false, some true, some true, some false) :=
  ⟨by decide, by rfl⟩

/-- C7 (confirmed): `validate()` is idempotent — with all registered
fields present, a first call succeeds with some result, and calling
`validate()` again on the resulting state (field values unchanged; only UI
error displays and advisory caches were touched) returns a result with
identical contents. -/
theorem C7_validate_idempotent (env : JSEnv) (st : FormState)
    (hall : ∀ p ∈ st.fields, (lookupAssoc st.elements p.1).isSome) :
    ∃ res st1 st2, validate env st = Except.ok (res, st1) ∧
      validate env st1 = Except.ok (res, st2) := by
  obtain ⟨st1, hloop1, hOE, hOF⟩ :=
    validateLoop_ok env st.elements st.fields st.fields st [] rfl rfl hall
  obtain ⟨st2, hloop2, _, _⟩ :=
    validateLoop_ok env st.elements st.fields st.fields st1 [] hOE hOF hall
  refine ⟨⟨(st.fields.filterMap (fieldError env st.elements st.fields)).isEmpty,
      st.fields.filterMap (fieldError env st.elements st.fields)⟩, st1, st2, ?_, ?_⟩
  · simp only [validate, hloop1]
    simp
  · simp only [validate, hOF, hloop2]
    simp

/-- Witness for C7: both calls on the two-invalid-field form return the
same result contents. -/
theorem C7_validate_idempotent_witness :
    ∃ res st1 st2, validate env0 stTwoBad = Except.ok (res, st1) ∧
      validate env0 st1 = Except.ok (res, st2) :=
  C7_validate_idempotent env0 stTwoBad (by decide)

/-- C8 (confirmed): `addField` on a name that does not resolve to an
element of the bound form throws a construction error, and the field
registry is left unchanged (the thrown call produces no new state). -/
theorem C8_addField_missing_field_throws (st : FormState) (name : String)
    (rules : List ValidationRule) (options : Option Bool)
    (h : lookupAssoc st.elements name = none) :
    addField st name rules options =
      Except.error ("FormGuard: поле \"" ++ name ++ "\" не найдено в форме") ∧
    (addFieldState st name rules options).fields = st.fields := by
  have he : addField st name rules options =
      Except.error ("FormGuard: поле \"" ++ name ++ "\" не найдено в форме") := by
    unfold addField
    rw [h]
  refine ⟨he, ?_⟩
  unfold addFieldState
  rw [he]

/-- Witness for C8: adding a field to a form with no elements throws and
leaves the (empty) registry untouched. -/
theorem C8_addField_missing_field_throws_witness :
    addField stEmptyForm "login" [mkRule "required"] none =
      Except.error ("FormGuard: поле \"" ++ "login" ++ "\" не найдено в форме") ∧
    (addFieldState stEmptyForm "login" [mkRule "required"] none).fields = stEmptyForm.fields :=
  C8_addField_missing_field_throws stEmptyForm "login" [mkRule "required"] none rfl

/-- C9 (confirmed): evaluating a rule whose name has no predicate in the
validator registry never throws: it returns true (fail-open) together with
a non-fatal warning message, for any field and any value. -/
theorem C9_unknown_rule_fail_open (env : JSEnv) (field : FieldElement) (value : JSValue)
    (rule : ValidationRule) (h : lookupAssoc (validatorsRegistry env) rule.rule = none) :
    validateRule env field value rule =
      (true, ["FormGuard: Unknown validation rule: " ++ rule.rule]) := by
  unfold validateRule
  rw [h]

/-- Witness for C9, at the unknown rule name `creditCard`. -/
theorem C9_unknown_rule_fail_open_witness :
    validateRule env0 elEmpty (.str "x") (mkRule "creditCard") =
      (true, ["FormGuard: Unknown validation rule: " ++ "creditCard"]) :=
  C9_unknown_rule_fail_open env0 elEmpty (.str "x") (mkRule "creditCard") rfl

/-- C10 (confirmed): for any registered, present field — whatever its value,
rule list, UI flag or host environment — the boolean returned by the
short-circuiting `validateField` equals the `valid` flag of the snapshot
returned by `getFieldValidity`, which evaluates every rule. -/
theorem C10_validateField_matches_getFieldValidity (env : JSEnv) (st : FormState)
    (name : String) (ui : Bool) (cfg : FieldConfig) (el : FieldElement)
    (hf : lookupAssoc st.fields name = some cfg) (he : lookupAssoc st.elements name = some el) :
    ∃ v, getFieldValidity env st name = Except.ok v ∧
      (validateField env st name ui).1 = validityValid v := by
  refine ⟨computeFieldValidity env el (lookupAssoc st.fields name),
    getFieldValidityCore_ok env st.elements st.fields name el he, ?_⟩
  have h1 : (validateField env st name ui).1 = cfg.rules.all (evalFieldRule env el el.value) := by
    simp only [validateField, hf, he]
    exact validateFieldLoop_fst env el el.value cfg.rules
  rw [h1, hf, validityValid_computeFieldValidity]

/-- Witness for C10, on the concrete `age` scenario: `validateField` and
the `valid` flag agree (both false). -/
theorem C10_validateField_matches_getFieldValidity_witness :
    ∃ v, getFieldValidity env0 stAge "age" = Except.ok v ∧
      (validateField env0 stAge "age" false).1 = validityValid v :=
  C10_validateField_matches_getFieldValidity env0 stAge "age" false cfgAge elAge rfl rfl

end Claims

end FormGuard
